import Mathlib

/-!
Verification development for the yosai session-management core.

Part 1 embeds `yosai/core/authc/authc_settings.py` (present in the
repository): Python dicts are modelled as association lists
(`List (String × α)`) with first-match lookup, which matches Python's
unique-key dict semantics; `None` is `Option.none`; Python truthiness of a
dict (`if algorithms:`) is "the optional value is present and the list is
non-empty".

Part 2 models the session-manager layer
(`AbstractNativeSessionManager` / `AbstractValidatingSessionManager`).
That module is not part of the sources here — only its unit tests are —
so those operations are modelled from the specification, as effect traces:
each operation returns the ordered list of hooks it invoked together with
its outcome (normal return value or raised exception).
-/

namespace Yosai

/-- A Python dict with string keys, as an association list (insertion order,
unique keys in well-formed dicts). -/
abbrev Dict (α : Type) := List (String × α)

/-- `d.get(k)` on a Python dict: first binding whose key equals `k`. -/
def dictGet {α : Type} (d : Dict α) (k : String) : Option α :=
  (d.find? (fun p => p.1 == k)).map (fun p => p.2)

/-- Key lookup misses when the key is not among the dict's keys. -/
theorem dictGet_eq_none_of_not_mem {α : Type} (d : Dict α) (k : String)
    (h : k ∉ d.map Prod.fst) : dictGet d k = none := by
  induction d with
  | nil => rfl
  | cons p t ih =>
    simp only [List.map_cons, List.mem_cons, not_or] at h
    have hpk : (p.1 == k) = false := by
      simp [beq_eq_false_iff_ne]
      exact fun hk => h.1 hk.symm
    simp [dictGet, List.find?, hpk]
    exact (by simpa [dictGet] using ih h.2)

/-- Looking up in a dict whose entries were rewritten entry-wise, with each
key kept and each value transformed by a function of that key, gives the
transform (at the looked-up key) of the original lookup. -/
theorem dictGet_map_keyed {α β : Type} (m : Dict α) (g : String → α → β)
    (k : String) :
    dictGet (m.map (fun p => (p.1, g p.1 p.2))) k =
      (dictGet m k).map (g k) := by
  induction m with
  | nil => rfl
  | cons p t ih =>
    by_cases hpk : p.1 = k
    · subst hpk
      simp [dictGet, List.find?]
    · have hpk2 : (p.1 == k) = false := by
        simp [beq_eq_false_iff_ne]; exact hpk
      simp only [List.map_cons]
      simp [dictGet, List.find?, hpk2] at ih ⊢
      exact ih

/-! ## `AuthenticationSettings` (src/yosai/core/authc/authc_settings.py) -/

/-- The inner comprehension of `init_algorithms`:
`{"{0}__{1}".format(alg, key): value for key, value in vals.items()}`. -/
def namespaced {α : Type} (alg : String) (vals : Dict α) : Dict α :=
  vals.map (fun q => (alg ++ "__" ++ q.1, q.2))

/-- `AuthenticationSettings.init_algorithms`:
`algorithms = self.authc_config.get('hash_algorithms', None)`; if that is
truthy (present and non-empty), return the dict mapping each `alg` to its
namespaced entries, else return `None`. -/
def init_algorithms {α : Type} (hash_algorithms : Option (Dict (Dict α))) :
    Option (Dict (Dict α)) :=
  match hash_algorithms with
  | some algorithms =>
    if algorithms.isEmpty then none
    else some (algorithms.map (fun p => (p.1, namespaced p.1 p.2)))
  | none => none

/-- `AuthenticationSettings.get_config`: if `self.algorithms` is truthy,
`self.algorithms.get(algo, {})`, else the empty dict. -/
def get_config {α : Type} (algorithms : Option (Dict (Dict α)))
    (algo : String) : Dict α :=
  match algorithms with
  | some algs => if algs.isEmpty then [] else (dictGet algs algo).getD []
  | none => []

namespace Session

/-! ## Session-manager layer, modelled from the spec

The manager classes themselves are not among the sources (only their unit
tests are), so every definition in this section is modelled from the
specification. Operations are embedded as effect traces: a call returns
the ordered list of hooks it invoked, plus its outcome. -/

/-- The observable hook / collaborator calls a manager operation can make. -/
inductive Hook where
  | sessionStop
  | on_stop
  | notify_stop
  | after_stopped
  | on_change
  | notify_expiration
  | after_expired
  | schedulerEnable
  | after_session_validation_enabled
  | before_session_validation_disabled
  | schedulerDisable
  deriving DecidableEq, Repr

/-- A Python exception value: its class name and the names of the ancestor
classes it derives from (so `isinstance` checks can be modelled). -/
structure PyExc where
  name : String
  bases : List String
  deriving DecidableEq, Repr

/-- `isinstance(e, ExpiredSessionException)`: the exception is of that class
or derives from it. -/
def isExpiredFamily (e : PyExc) : Bool :=
  e.name == "ExpiredSessionException" || e.bases.contains "ExpiredSessionException"

def expiredSessionExc : PyExc :=
  ⟨"ExpiredSessionException", ["InvalidSessionException"]⟩

def stoppedSessionExc : PyExc :=
  ⟨"StoppedSessionException", ["InvalidSessionException"]⟩

def invalidSessionExc : PyExc :=
  ⟨"InvalidSessionException", []⟩

def unknownSessionExc : PyExc :=
  ⟨"UnknownSessionException", ["InvalidSessionException"]⟩

def illegalArgumentExc : PyExc :=
  ⟨"IllegalArgumentException", []⟩

/-- Fault injection for `stop(key)`: which of the underlying Session's stop
call and the two hooks before `after_stopped` raise, and with what. -/
structure StopFaults where
  session_stop_exc : Option PyExc
  on_stop_exc : Option PyExc
  notify_stop_exc : Option PyExc
  deriving DecidableEq, Repr

/-- Modelled from the spec: `AbstractNativeSessionManager.stop(key)` (the
manager class is absent from the sources). `lookup_required_session` is
represented by its result `found`; on success the Session's own stop, then
`on_stop`, then `notify_stop` run inside a try-block whose finally-clause
runs `after_stopped(session)`, and any exception raised in the try-block is
re-raised to the caller after the finally-clause has run. -/
def stop (found : Option Unit) (f : StopFaults) : List Hook × Option PyExc :=
  match found with
  | none => ([], some unknownSessionExc)
  | some _ =>
    let body : List Hook × Option PyExc :=
      match f.session_stop_exc with
      | some e => ([Hook.sessionStop], some e)
      | none =>
        match f.on_stop_exc with
        | some e => ([Hook.sessionStop, Hook.on_stop], some e)
        | none =>
          match f.notify_stop_exc with
          | some e => ([Hook.sessionStop, Hook.on_stop, Hook.notify_stop], some e)
          | none => ([Hook.sessionStop, Hook.on_stop, Hook.notify_stop], none)
    (body.1 ++ [Hook.after_stopped], body.2)

/-- Modelled from the spec:
`AbstractValidatingSessionManager.on_expiration(session,
expired_session_exception=None, session_key=None)` (the manager class is
absent from the sources). Both optional arguments supplied: persist, notify
listeners with the snapshot payload, then run the external expiry cleanup
hook. Neither supplied: persist only. Exactly one supplied:
`IllegalArgumentException`. The `session` argument itself does not affect
the trace shape and is omitted. -/
def on_expiration (expired_session_exception : Option PyExc)
    (session_key : Option String) : List Hook × Option PyExc :=
  match expired_session_exception, session_key with
  | some _, some _ =>
    ([Hook.on_change, Hook.notify_expiration, Hook.after_expired], none)
  | none, none => ([Hook.on_change], none)
  | some _, none => ([], some illegalArgumentExc)
  | none, some _ => ([], some illegalArgumentExc)

/-- Modelled from the spec:
`AbstractValidatingSessionManager.on_invalidation(session, ise, session_key)`
(the manager class is absent from the sources). If `ise` is (or derives
from) `ExpiredSessionException`, delegate fully to
`on_expiration(session, ise, session_key)` and return; otherwise run the
explicit-stop sequence `on_stop`, `notify_stop`, `after_stopped`. -/
def on_invalidation (ise : PyExc) (session_key : String) :
    List Hook × Option PyExc :=
  if isExpiredFamily ise then on_expiration (some ise) (some session_key)
  else ([Hook.on_stop, Hook.notify_stop, Hook.after_stopped], none)

/-- The validating manager's scheduler-related state:
`session_validation_scheduler_enabled` is the feature flag;
`session_validation_scheduler` is `none` when no scheduler is set, and
`some b` when a scheduler with enabled-flag `b` is set. -/
structure ManagerState where
  session_validation_scheduler_enabled : Bool
  session_validation_scheduler : Option Bool
  deriving DecidableEq, Repr

/-- Modelled from the spec:
`AbstractValidatingSessionManager.enable_session_validation()` (the manager
class is absent from the sources). Lazily creates a scheduler if none is
set, stores it, always calls the scheduler's enable operation (leaving it
enabled), then the `after_session_validation_enabled` hook. -/
def enable_session_validation (st : ManagerState) : ManagerState × List Hook :=
  ({ st with session_validation_scheduler := some true },
   [Hook.schedulerEnable, Hook.after_session_validation_enabled])

/-- Modelled from the spec:
`AbstractValidatingSessionManager.enable_session_validation_if_necessary()`
(the manager class is absent from the sources). Calls
`enable_session_validation` only if the feature flag is set and either no
scheduler exists or the existing scheduler is not already enabled;
otherwise does nothing. -/
def enable_session_validation_if_necessary (st : ManagerState) :
    ManagerState × List Hook :=
  let scheduler := st.session_validation_scheduler
  if st.session_validation_scheduler_enabled &&
      (scheduler.isNone || !(scheduler.getD false)) then
    enable_session_validation st
  else
    (st, [])

/-- Modelled from the spec:
`AbstractValidatingSessionManager.disable_session_validation()` (the
manager class is absent from the sources). Runs the
`before_session_validation_disabled` hook first; if a scheduler is set,
calls its disable operation in a try-block that swallows any failure
(`scheduler_disable_fails` injects such a failure); the scheduler reference
is cleared afterwards in every case and the call itself never raises. -/
def disable_session_validation (st : ManagerState)
    (_scheduler_disable_fails : Bool) :
    ManagerState × List Hook × Option PyExc :=
  match st.session_validation_scheduler with
  | none =>
    ({ st with session_validation_scheduler := none },
     [Hook.before_session_validation_disabled], none)
  | some _ =>
    ({ st with session_validation_scheduler := none },
     [Hook.before_session_validation_disabled, Hook.schedulerDisable],
     none)

/-- Modelled from the spec:
`AbstractNativeSessionManager.remove_attribute(key, attribute_key)` (the
manager class is absent from the sources). `found` is the looked-up
session's attribute dict (or `none` for a failed lookup, raising
`UnknownSessionException`). Absent attribute key: return empty, no
persistence call, session unchanged. Present: remove the binding, return
the previous value, call `on_change`. The result is (returned value,
resulting attribute dict when the lookup succeeded, hooks, exception). -/
def remove_attribute {α : Type} (found : Option (Dict α))
    (attribute_key : String) :
    Option α × Option (Dict α) × List Hook × Option PyExc :=
  match found with
  | none => (none, none, [], some unknownSessionExc)
  | some attrs =>
    match dictGet attrs attribute_key with
    | none => (none, some attrs, [], none)
    | some v =>
      (some v, some (attrs.eraseP (fun p => p.1 == attribute_key)),
       [Hook.on_change], none)

/-- Python dict assignment `d[k] = v`: update the existing binding in place
or append a new one. -/
def dictSet {α : Type} (d : Dict α) (k : String) (v : α) : Dict α :=
  if (d.find? (fun p => p.1 == k)).isSome then
    d.map (fun p => if p.1 == k then (k, v) else p)
  else d ++ [(k, v)]

/-- Modelled from the spec:
`AbstractNativeSessionManager.set_attribute(key, attribute_key, value=None)`
(the manager class is absent from the sources). With no value supplied the
call is exactly `remove_attribute(key, attribute_key)`; with a value it
stores the attribute and calls `on_change`. -/
def set_attribute {α : Type} (found : Option (Dict α))
    (attribute_key : String) (value : Option α) :
    Option α × Option (Dict α) × List Hook × Option PyExc :=
  match value with
  | none => remove_attribute found attribute_key
  | some v =>
    match found with
    | none => (none, none, [], some unknownSessionExc)
    | some attrs =>
      (none, some (dictSet attrs attribute_key v), [Hook.on_change], none)

end Session

end Yosai

namespace Yosai

/-- Claim C9: when the `hash_algorithms` configuration is absent or empty,
`init_algorithms` returns `None`; otherwise it returns a mapping taking each
configured algorithm name `alg` to exactly its original entries with every
key prefixed by `alg` and a double underscore, values unchanged. -/
theorem init_algorithms_spec {α : Type} :
    (init_algorithms (α := α) none = none) ∧
    (init_algorithms (α := α) (some []) = none) ∧
    (∀ (m : Dict (Dict α)), m ≠ [] →
      (init_algorithms (some m)).isSome = true ∧
      ∀ alg, dictGet ((init_algorithms (some m)).getD []) alg =
        (dictGet m alg).map (namespaced alg)) := by
  refine ⟨rfl, rfl, ?_⟩
  intro m hm
  have hne : m.isEmpty = false := by
    cases m with
    | nil => exact absurd rfl hm
    | cons p t => rfl
  constructor
  · simp [init_algorithms, hne]
  · intro alg
    simp only [init_algorithms, hne, if_neg (by simp [hne] : ¬ m.isEmpty = true),
      Option.getD_some]
    exact dictGet_map_keyed m (fun a vals => namespaced a vals) alg

/-- Closed instance of `init_algorithms_spec` at a concrete one-algorithm
configuration. -/
theorem init_algorithms_spec_witness :
    dictGet ((init_algorithms
        (some [("sha256", [("iterations", (100000 : Nat))])])).getD [])
        "sha256" = some [("sha256__iterations", 100000)] := by
  have h := (init_algorithms_spec (α := Nat)).2.2
    [("sha256", [("iterations", 100000)])] (by simp) |>.2 "sha256"
  rw [h]
  rfl

/-- Claim C10: `get_config` applied to the stored `init_algorithms` result
always yields a dict (never `None`): the namespaced configuration of a
configured algorithm, and the empty dict both when no `hash_algorithms` were
configured and when the requested algorithm is unknown (in which case the
lookup below is `none` and defaults to `[]`). -/
theorem get_config_spec {α : Type} (hash_algorithms : Option (Dict (Dict α)))
    (algo : String) :
    get_config (init_algorithms hash_algorithms) algo =
      (match hash_algorithms with
       | none => []
       | some m => ((dictGet m algo).map (namespaced algo)).getD []) := by
  match hash_algorithms with
  | none => rfl
  | some m =>
    cases m with
    | nil => rfl
    | cons p t =>
      have hne : (p :: t).isEmpty = false := rfl
      simp only [init_algorithms, hne, Bool.false_eq_true, if_false, get_config]
      have hmap := dictGet_map_keyed (p :: t) (fun a vals => namespaced a vals) algo
      rw [show ((p :: t).map (fun q => (q.1, namespaced q.1 q.2))).isEmpty = false
            from rfl]
      simp only [Bool.false_eq_true, if_false]
      rw [hmap]

/-- Removing the first binding of `k` from a dict with pairwise-distinct keys
leaves a dict in which `k` no longer resolves. -/
theorem dictGet_eraseP_eq_none {α : Type} (attrs : Dict α) (k : String)
    (hnd : (attrs.map Prod.fst).Nodup) :
    dictGet (attrs.eraseP (fun p => p.1 == k)) k = none := by
  induction attrs with
  | nil => rfl
  | cons p t ih =>
    simp only [List.map_cons, List.nodup_cons] at hnd
    by_cases hpk : p.1 = k
    · rw [List.eraseP_cons_of_pos (l := t) (by simp [hpk])]
      exact dictGet_eq_none_of_not_mem t k (by rw [← hpk]; exact hnd.1)
    · have hpk2 : (p.1 == k) = false := by
        simp [beq_eq_false_iff_ne]; exact hpk
      rw [List.eraseP_cons_of_neg (l := t) (by simp [hpk2])]
      simp only [dictGet, List.find?, hpk2]
      exact ih hnd.2

/-- Claim C1: on a session key whose lookup succeeds, `stop(key)` runs
`after_stopped(session)` exactly once and as the last action, for every
combination of the Session's own stop call and the hooks before it raising
or not; the call's outcome is exactly the first exception raised in that
sequence (re-raised to the caller after the cleanup hook), and normal
return when nothing raised. -/
theorem stop_after_stopped_once_and_reraises (f : Session.StopFaults) :
    ((Session.stop (some ()) f).1.count Session.Hook.after_stopped = 1) ∧
    ((Session.stop (some ()) f).1.getLast? = some Session.Hook.after_stopped) ∧
    ((Session.stop (some ()) f).2 =
      match f.session_stop_exc with
      | some e => some e
      | none =>
        match f.on_stop_exc with
        | some e => some e
        | none => f.notify_stop_exc) := by
  obtain ⟨a, b, c⟩ := f
  cases a <;> cases b <;> cases c <;>
    simp [Session.stop, List.count_cons, List.count_nil]

/-- Claim C2: `on_invalidation(session, ise, session_key)` delegates fully
to `on_expiration(session, ise, session_key)` when `ise` is (or derives
from) `ExpiredSessionException`, and otherwise runs exactly the stop
sequence `on_stop`, `notify_stop`, `after_stopped` in that order, raising
nothing. -/
theorem on_invalidation_dispatch (ise : Session.PyExc) (session_key : String) :
    (Session.isExpiredFamily ise = true →
      Session.on_invalidation ise session_key =
        Session.on_expiration (some ise) (some session_key)) ∧
    (Session.isExpiredFamily ise = false →
      Session.on_invalidation ise session_key =
        ([Session.Hook.on_stop, Session.Hook.notify_stop,
          Session.Hook.after_stopped], none)) := by
  constructor <;> intro h <;> simp [Session.on_invalidation, h]

/-- Closed instance of `on_invalidation_dispatch` at an expired-family
exception and at a non-expired invalid-session exception. -/
theorem on_invalidation_dispatch_witness :
    (Session.on_invalidation Session.expiredSessionExc "sessionkey123" =
      Session.on_expiration (some Session.expiredSessionExc)
        (some "sessionkey123")) ∧
    (Session.on_invalidation Session.invalidSessionExc "sessionkey123" =
      ([Session.Hook.on_stop, Session.Hook.notify_stop,
        Session.Hook.after_stopped], none)) :=
  ⟨(on_invalidation_dispatch Session.expiredSessionExc "sessionkey123").1
      (by decide),
   (on_invalidation_dispatch Session.invalidSessionExc "sessionkey123").2
      (by decide)⟩

/-- Claim C3: `on_expiration` with only the session supplied calls only the
persistence hook `on_change` (so no listener notification and no
`after_expired` cleanup occur), while with `expired_session_exception` and
`session_key` both supplied it calls `on_change`, then `notify_expiration`,
then `after_expired`. -/
theorem on_expiration_hook_sequences :
    (Session.on_expiration none none = ([Session.Hook.on_change], none)) ∧
    (∀ (e : Session.PyExc) (k : String),
      Session.on_expiration (some e) (some k) =
        ([Session.Hook.on_change, Session.Hook.notify_expiration,
          Session.Hook.after_expired], none)) :=
  ⟨rfl, fun _ _ => rfl⟩

/-- Claim C4: `on_expiration` raises `IllegalArgumentException` exactly when
one of `expired_session_exception` and `session_key` is supplied and the
other is not; supplying both or omitting both raises nothing at all (so in
particular not that exception). -/
theorem on_expiration_argument_pairing :
    (∀ e : Session.PyExc,
      (Session.on_expiration (some e) none).2 = some Session.illegalArgumentExc) ∧
    (∀ k : String,
      (Session.on_expiration none (some k)).2 = some Session.illegalArgumentExc) ∧
    (∀ (e : Session.PyExc) (k : String),
      (Session.on_expiration (some e) (some k)).2 = none) ∧
    ((Session.on_expiration none none).2 = none) :=
  ⟨fun _ => rfl, fun _ => rfl, fun _ _ => rfl, rfl⟩

/-- Claim C5: `enable_session_validation_if_necessary` invokes
`enable_session_validation` exactly when the feature flag is set and the
scheduler slot is anything but an already-enabled scheduler (no scheduler,
or one that is not enabled); in every other state — in particular whenever
the flag is unset, and whenever a scheduler is already enabled — it leaves
the state unchanged and invokes nothing. -/
theorem enable_session_validation_if_necessary_spec (st : Session.ManagerState) :
    Session.enable_session_validation_if_necessary st =
      if st.session_validation_scheduler_enabled = true ∧
          st.session_validation_scheduler ≠ some true then
        Session.enable_session_validation st
      else (st, []) := by
  obtain ⟨flag, sched⟩ := st
  cases flag <;> rcases sched with _ | b <;>
    simp [Session.enable_session_validation_if_necessary]

/-- Claim C6: `disable_session_validation` runs
`before_session_validation_disabled` first, then the scheduler's disable
operation exactly when a scheduler is set; its result does not depend on
whether that disable call fails (the failure is swallowed: the outcome is
never an exception), and the scheduler reference is cleared in every
case. -/
theorem disable_session_validation_spec (st : Session.ManagerState)
    (fails : Bool) :
    Session.disable_session_validation st fails =
      ({ st with session_validation_scheduler := none },
       Session.Hook.before_session_validation_disabled ::
         (if st.session_validation_scheduler.isSome then
            [Session.Hook.schedulerDisable]
          else []),
       none) := by
  obtain ⟨flag, sched⟩ := st
  rcases sched with _ | b <;> rfl

/-- Claim C7: `set_attribute(key, attribute_key)` with no value supplied is
the very same operation as `remove_attribute(key, attribute_key)`: same
returned value, same resulting session state, same hooks, same outcome. -/
theorem set_attribute_absent_value_is_remove_attribute {α : Type}
    (found : Option (Dict α)) (attribute_key : String) :
    Session.set_attribute found attribute_key none =
      Session.remove_attribute found attribute_key := rfl

/-- Claim C8: on a session that the key resolves to (with well-formed,
duplicate-free attribute keys), `remove_attribute` of an absent attribute
key returns empty, calls no hook (in particular not `on_change`), and
leaves the attributes unchanged; of a present attribute key it returns the
previous value, calls exactly `on_change`, and leaves attributes in which
the key no longer resolves. -/
theorem remove_attribute_spec {α : Type} (attrs : Dict α) (k : String)
    (hnd : (attrs.map Prod.fst).Nodup) :
    (dictGet attrs k = none →
      Session.remove_attribute (some attrs) k = (none, some attrs, [], none)) ∧
    (∀ v : α, dictGet attrs k = some v →
      ∃ attrs2 : Dict α,
        Session.remove_attribute (some attrs) k =
          (some v, some attrs2, [Session.Hook.on_change], none) ∧
        dictGet attrs2 k = none) := by
  constructor
  · intro h
    simp [Session.remove_attribute, h]
  · intro v hv
    refine ⟨attrs.eraseP (fun p => p.1 == k), ?_, ?_⟩
    · simp [Session.remove_attribute, hv]
    · exact dictGet_eraseP_eq_none attrs k hnd

/-- Closed instance of `remove_attribute_spec` on a two-attribute session:
the absent-key branch and the present-key branch at concrete inputs. -/
theorem remove_attribute_spec_witness :
    (Session.remove_attribute (some [("attr1", (1 : Nat)), ("attr3", 3)]) "attr5" =
      (none, some [("attr1", 1), ("attr3", 3)], [], none)) ∧
    (∃ attrs2 : Dict Nat,
      Session.remove_attribute (some [("attr1", (1 : Nat)), ("attr3", 3)]) "attr3" =
        (some 3, some attrs2, [Session.Hook.on_change], none) ∧
      dictGet attrs2 "attr3" = none) :=
  ⟨(remove_attribute_spec [("attr1", (1 : Nat)), ("attr3", 3)] "attr5"
      (by decide)).1 (by decide),
   (remove_attribute_spec [("attr1", (1 : Nat)), ("attr3", 3)] "attr3"
      (by decide)).2 3 (by decide)⟩

end Yosai
